import Mathlib

/-!
Verification of the Binance AI trading agents' decision pipeline, fallback
heuristics, execution gate and performance tracker.

Numeric values are modelled as exact rationals (`ℚ`); the source performs the
same arithmetic on JavaScript numbers.  All definitions are shallow embeddings
of the TypeScript source files under `src/`.
-/

attribute [local semireducible] Rat.mul Rat.add Rat.sub Rat.inv

namespace BinanceAgents

/-- Technical state of one symbol, `MarketData` from `src/lib/types.ts`
(fields `rsi`, `macd`, `signal`, `volume`, `price`). -/
structure MarketData where
  rsi : ℚ
  macd : ℚ
  signal : ℚ
  volume : ℚ
  price : ℚ
deriving DecidableEq

/-- `calculateRiskScore` from `src/lib/types.ts` (lines 100–129): starts at
`0.5`, adjusts for RSI, MACD-vs-signal, volume and sentiment, and clamps the
result with `Math.max(0, Math.min(1, riskScore))`. -/
def calculateRiskScore (marketData : MarketData) (sentimentScore : ℚ) : ℚ :=
  let r0 : ℚ := 1/2
  let r1 : ℚ := if marketData.rsi > 70 then r0 + 1/10
    else if marketData.rsi < 30 then r0 - 1/10 else r0
  let r2 : ℚ := if marketData.macd > marketData.signal then r1 - 1/20 else r1 + 1/20
  let r3 : ℚ := if marketData.volume > 1000000 then r2 + 1/20 else r2
  let r4 : ℚ := r3 + (sentimentScore - 1/2) * (1/5)
  max 0 (min 1 r4)

/-- The spec's wording of the risk formula (section 4.3): a sum of independent
signed contributions, clamped to `[0,1]`. -/
def riskScoreSpec (m : MarketData) (sentiment : ℚ) : ℚ :=
  let rsiAdj : ℚ := if m.rsi > 70 then 1/10 else if m.rsi < 30 then -(1/10) else 0
  let macdAdj : ℚ := if m.macd > m.signal then -(1/20) else 1/20
  let volAdj : ℚ := if m.volume > 1000000 then 1/20 else 0
  max 0 (min 1 (1/2 + rsiAdj + macdAdj + volAdj + (sentiment - 1/2) * (1/5)))

/-- Floor of a nonnegative rational as a natural number (used to print numbers;
for `q ≥ 0`, `q.num / q.den` is the mathematical floor). -/
def natPart (q : ℚ) : Nat := (q.num / (q.den : ℤ)).toNat

/-- Decimal digits of a fractional part `q ∈ [0,1)`, up to `fuel` digits,
stopping at zero (mirrors how JavaScript prints short terminating decimals). -/
def fracDigits : Nat → ℚ → String
  | 0, _ => ""
  | fuel + 1, q =>
    if q = 0 then ""
    else
      let d := natPart (q * 10)
      toString d ++ fracDigits fuel (q * 10 - (d : ℚ))

/-- Default JavaScript `Number`-to-string rendering for the rationals that
appear in this development (integers and short terminating decimals). -/
def fmtNum (q : ℚ) : String :=
  let sign := if q < 0 then "-" else ""
  let a := if q < 0 then -q else q
  let ip := natPart a
  let fr := a - (ip : ℚ)
  let frs := fracDigits 12 fr
  sign ++ toString ip ++ (if frs = "" then "" else "." ++ frs)

/-- The technical indicators `fallbackDecisionMaking` extracts from its prompt
with regular expressions (`src/lib/huggingface.ts` lines 1079–1099); the
extraction defaults are RSI `50`, MACD `0`, Signal `0`, Risk `0.5`. -/
structure Indicators where
  rsi : ℚ
  macd : ℚ
  signal : ℚ
  risk : ℚ
deriving DecidableEq

/-- The qualitative market-condition keyword flags `fallbackDecisionMaking`
detects in the prompt (`src/lib/huggingface.ts` lines 1103–1110). -/
structure MarketConditions where
  volatile : Bool
  trending : Bool
  uptrend : Bool
  downtrend : Bool
  sideways : Bool
deriving DecidableEq

/-- No market-condition keyword present. -/
def noConditions : MarketConditions := ⟨false, false, false, false, false⟩

/-- The detected market conditions in the source's `Object.entries` insertion
order (`volatile`, `trending`, `uptrend`, `downtrend`, `sideways`). -/
def detectedConditions (mc : MarketConditions) : List String :=
  (if mc.volatile then ["volatile"] else []) ++
  (if mc.trending then ["trending"] else []) ++
  (if mc.uptrend then ["uptrend"] else []) ++
  (if mc.downtrend then ["downtrend"] else []) ++
  (if mc.sideways then ["sideways"] else [])

/-- The reasoning line reporting detected market conditions. -/
def conditionsLine (mc : MarketConditions) : String :=
  match detectedConditions mc with
  | [] => "- No specific market conditions detected\n"
  | l => "- Detected market conditions: " ++ String.intercalate ", " l ++ "\n"

/-- The market-condition rules and the default (`src/lib/huggingface.ts`
lines 1171–1201), reached after the risk, RSI and MACD rules fall through;
`pre` is the reasoning accumulated so far. -/
def marketConditionRules (pre : String) (ind : Indicators) (mc : MarketConditions) :
    String × String :=
  if mc.volatile ∧ ind.risk > 1/2 then
    ("HOLD", pre ++ "- Market is volatile with moderate to high risk, suggesting HOLD\n")
  else if mc.uptrend ∧ ind.risk < 3/5 then
    ("BUY", pre ++ "- Market is in uptrend with acceptable risk, suggesting BUY\n")
  else if mc.downtrend then
    ("SELL", pre ++ "- Market is in downtrend, suggesting SELL\n")
  else if mc.sideways then
    ("HOLD", pre ++ "- Market is moving sideways, suggesting HOLD\n")
  else
    ("HOLD", pre ++ "- No strong signals detected, defaulting to HOLD\n")

/-- `fallbackDecisionMaking` from `src/lib/huggingface.ts` (lines 1072–1202),
as a function of the regex-extracted indicators and detected keyword flags:
the ordered rule cascade (risk override, RSI, MACD, market conditions,
default HOLD) returning `{decision, reasoning}`. -/
def fallbackDecisionMaking (ind : Indicators) (mc : MarketConditions) :
    String × String :=
  let base := "Trading decision reasoning:\n" ++
    "- Extracted indicators: RSI=" ++ fmtNum ind.rsi ++ ", MACD=" ++ fmtNum ind.macd ++
    ", Signal=" ++ fmtNum ind.signal ++ ", Risk=" ++ fmtNum ind.risk ++ "\n" ++
    conditionsLine mc
  if ind.risk > 7/10 then
    ("HOLD", base ++
      "- High risk level (> 0.7) detected, recommending HOLD as a conservative approach\n")
  else if ind.rsi > 70 then
    ("SELL", base ++ "- RSI > 70 indicates overbought conditions, suggesting SELL\n")
  else if ind.rsi < 30 then
    ("BUY", base ++ "- RSI < 30 indicates oversold conditions, suggesting BUY\n")
  else if ind.macd > 0 ∧ ind.macd > ind.signal then
    (if ind.risk < 1/2 then
      ("BUY", base ++
        "- MACD is positive and above signal line with acceptable risk, suggesting BUY\n")
    else
      marketConditionRules
        (base ++ "- MACD is bullish but risk is elevated, continuing analysis\n") ind mc)
  else if ind.macd < 0 ∧ ind.macd < ind.signal then
    ("SELL", base ++ "- MACD is negative and below signal line, suggesting SELL\n")
  else
    marketConditionRules base ind mc

/-- `pat` starts the list `s`. -/
def charsStart : List Char → List Char → Bool
  | _, [] => true
  | [], _ :: _ => false
  | c :: cs, p :: ps => c == p && charsStart cs ps

/-- `pat` occurs contiguously somewhere in the list `s`. -/
def charsHave (s pat : List Char) : Bool :=
  match s with
  | [] => charsStart [] pat
  | _ :: rest => charsStart s pat || charsHave rest pat

/-- `pat` occurs as a contiguous substring of `s` (JavaScript
`String.prototype.includes`). -/
def strContains (s pat : String) : Bool :=
  charsHave s.toList pat.toList

/-- The token search `queryDeepSeek` applies to the uppercased first line of
the model output: `BUY`, then `SELL`, then `HOLD`, defaulting to `HOLD`. -/
def extractDecisionFrom (firstLine : String) : String :=
  if strContains firstLine "BUY" then "BUY"
  else if strContains firstLine "SELL" then "SELL"
  else if strContains firstLine "HOLD" then "HOLD"
  else "HOLD"

/-- The decision-token extraction `queryDeepSeek` applies to the model output
(`src/lib/huggingface.ts` lines 932–946): take the first line (JavaScript
`content.split("\n")[0]`), uppercase it, and search for the tokens. -/
def extractDecision (content : String) : String :=
  extractDecisionFrom ((content.splitOn "\n").headD "").toUpper

/-- How the decision stage of `analyzeSignals` (`src/lib/types.ts` lines
230–258) obtained its `{decision, reasoning}` value: the remote model
answered with some free-text content; or `queryFLANT5` caught a remote
failure internally and ran `fallbackDecisionMaking` itself; or the call threw
and `analyzeSignals`' own `catch` ran `fallbackDecisionMaking`. -/
inductive DecisionCall
  | remote (content : String)
  | fellBack (ind : Indicators) (mc : MarketConditions)
  | threw (ind : Indicators) (mc : MarketConditions)

/-- The `{decision, reasoning}` pair the decision stage ends up with. -/
def decisionResult : DecisionCall → String × String
  | .remote content => (extractDecision content, content)
  | .fellBack ind mc => fallbackDecisionMaking ind mc
  | .threw ind mc => fallbackDecisionMaking ind mc

/-- Whether the deterministic fallback actually produced the stage's value. -/
def fallbackWasUsed : DecisionCall → Bool
  | .remote _ => false
  | .fellBack _ _ => true
  | .threw _ _ => true

/-- The per-stage flag `analyzeSignals` records for the decision stage
(`src/lib/types.ts`): on the non-throwing path it is
`flantResult.reasoning && flantResult.reasoning.includes("Fallback")`, and the
`catch` path sets it to `true`. -/
def decisionUsedFallbackFlag (c : DecisionCall) : Bool :=
  match c with
  | .threw _ _ => true
  | _ => !(decisionResult c).2.isEmpty && strContains (decisionResult c).2 "Fallback"

/-- The overall `usedFallback` flag returned by the trade-analysis route
(`src/unnamed/part_020`, `GET`): the request's force-fallback switch or-ed
with the four per-stage flags. -/
def overallUsedFallback (useFallback tapasFlag sentimentFlag decisionFlag bartFlag : Bool) :
    Bool :=
  useFallback || tapasFlag || sentimentFlag || decisionFlag || bartFlag

/-- The decision returned by `analyzeSignals`: the decision stage's value, or
`HOLD` from `defaultResult` when even constructing the result threw. -/
def analyzeSignalsDecision (internalError : Bool) (c : DecisionCall) : String :=
  if internalError then "HOLD" else (decisionResult c).1

/-- The risk score returned by `analyzeSignals`: `calculateRiskScore`, or
`0.5` from `defaultResult` on the internal-error path. -/
def analyzeSignalsRiskScore (internalError : Bool) (m : MarketData) (sentiment : ℚ) : ℚ :=
  if internalError then 1/2 else calculateRiskScore m sentiment

/-- Risk parameters of the trading configuration, the fields
`TradingService.executeTrade` and its helpers read. -/
structure RiskParameters where
  maxPositionSize : ℚ
  stopLossPercent : ℚ
  takeProfitPercent : ℚ
  maxDailyLoss : ℚ
  maxDrawdownPercent : ℚ
deriving DecidableEq

/-- `TradingConfig` as used by `src/lib/services/trading-service.ts`. -/
structure TradingConfig where
  enabled : Bool
  testMode : Bool
  allowedSymbols : List String
  riskParameters : RiskParameters

/-- One simulated or real order record (`Order` from the trading types). -/
structure OrderRecord where
  id : String
  symbol : String
  side : String
  type : String
  status : String
  quantity : ℚ
  executedQty : ℚ
  timestamp : Nat
deriving DecidableEq

/-- `TradeExecutionResult` returned by `executeTrade`. -/
structure TradeExecutionResult where
  success : Bool
  orderId : Option String
  order : Option OrderRecord
  errorMessage : Option String
deriving DecidableEq

/-- The Exchange Client methods `executeTrade` can invoke, recorded as a call
trace. -/
inductive ExchangeCall
  | getBalances
  | getCurrentPrice
  | placeMarketOrder
  | placeStopLossOrder
  | placeTakeProfitOrder
deriving DecidableEq

/-- One asset balance as returned by the Exchange Client. -/
structure BalanceEntry where
  asset : String
  free : ℚ
  total : ℚ

/-- The Exchange Client's responses during one `executeTrade` call, plus the
trading service's mutable risk state (`dailyPnL`). -/
structure ExchangeEnv where
  balances : List BalanceEntry
  price : ℚ
  marketOrderResult : TradeExecutionResult
  stopLossOrderOk : Bool
  dailyPnL : ℚ

/-- `calculatePositionSize` from `src/lib/services/trading-service.ts`
(lines 250–262): `maxPositionSize * confidence`, capped by the available
balance, floored to two decimals. -/
def calculatePositionSize (cfg : TradingConfig) (availableBalance confidence : ℚ) : ℚ :=
  let positionSize := cfg.riskParameters.maxPositionSize * confidence
  let capped := min positionSize availableBalance
  ((Int.fdiv (capped * 100).num (capped * 100).den : ℤ) : ℚ) / 100

/-- The Exchange Client calls issued by the fire-and-forget
`checkRiskParameters()` invocation: `executeTrade` calls it without `await`,
so the always-truthy pending `Promise` means its rejection branch is dead,
but the method body still starts running and issues `getBalances` unless the
daily-loss guard returned first. -/
def checkRiskParametersCalls (cfg : TradingConfig) (env : ExchangeEnv) : List ExchangeCall :=
  if env.dailyPnL < -cfg.riskParameters.maxDailyLoss then [] else [.getBalances]

/-- The protective-leg placement `placeStopLossAndTakeProfit` performs after
a filled market order: a stop-loss order, then — unless the stop-loss call
threw (the surrounding `catch` only logs) — a take-profit order. -/
def protectiveLegCalls (env : ExchangeEnv) : List ExchangeCall :=
  if env.stopLossOrderOk then [.placeStopLossOrder, .placeTakeProfitOrder]
  else [.placeStopLossOrder]

set_option linter.unusedVariables false in
/-- `TradingService.executeTrade` from `src/lib/services/trading-service.ts`
(lines 61–177), returning the `TradeExecutionResult` together with the trace
of Exchange Client calls it issued.  `now` stands for `Date.now()`;
`confidence` only shapes the order payload, which the trace does not carry. -/
def executeTrade (cfg : TradingConfig) (env : ExchangeEnv)
    (symbol action : String) (confidence : ℚ) (now : Nat) :
    TradeExecutionResult × List ExchangeCall :=
  if !cfg.enabled || action == "HOLD" then
    (⟨false, none, none,
      some (if !cfg.enabled then "Trading is disabled in configuration"
            else "Action is HOLD, no trade executed")⟩, [])
  else if !(cfg.allowedSymbols.contains symbol) then
    (⟨false, none, none, some ("Symbol " ++ symbol ++ " is not in the allowed symbols list")⟩,
     [])
  else if cfg.testMode then
    (⟨true, some ("test_" ++ toString now),
      some ⟨"test_" ++ toString now, symbol, action, "MARKET", "FILLED", 0, 0, now⟩,
      none⟩, [])
  else
    let calls0 := checkRiskParametersCalls cfg env ++ [ExchangeCall.getBalances]
    match env.balances.find? (fun b => b.asset == "USDT") with
    | none => (⟨false, none, none, some "Insufficient USDT balance"⟩, calls0)
    | some usdt =>
      if usdt.free ≤ 0 then
        (⟨false, none, none, some "Insufficient USDT balance"⟩, calls0)
      else
        let calls1 := calls0 ++ [ExchangeCall.getCurrentPrice]
        if action == "BUY" || action == "SELL" then
          let calls2 := calls1 ++ [ExchangeCall.placeMarketOrder]
          if env.marketOrderResult.success && env.marketOrderResult.order.isSome then
            (env.marketOrderResult, calls2 ++ protectiveLegCalls env)
          else
            (env.marketOrderResult, calls2)
        else
          (⟨false, none, none, some "Invalid action"⟩, calls1)

/-- One of the four remote analysis capabilities (`ModelType` from
`src/lib/types/model-tracking.ts`). -/
inductive ModelType
  | tapas
  | distilbert
  | flant5
  | bart
deriving DecidableEq, Inhabited

/-- `ModelPrediction` from `src/lib/types/model-tracking.ts`; `id` stands for
the `pred_${Date.now()}_${random}` identifier `recordPrediction` generates. -/
structure ModelPrediction where
  id : String
  timestamp : Nat
  modelType : ModelType
  input : String
  output : String
  latency : ℚ
  success : Bool
  error : Option String

/-- `ModelOutcome` from `src/lib/types/model-tracking.ts`. -/
structure ModelOutcome where
  predictionId : String
  timestamp : Nat
  correct : Bool
  actualOutcome : String
  notes : Option String

/-- `ModelPerformanceMetrics` from `src/lib/types/model-tracking.ts`. -/
structure ModelPerformanceMetrics where
  modelType : ModelType
  totalPredictions : Nat
  successRate : ℚ
  averageLatency : ℚ
  accuracy : Option ℚ
  lastUsed : Nat
  errorRate : ℚ
deriving Inhabited

/-- The server-side store of `src/lib/services/model-tracking.ts`
(`serverStore`), restricted to the collections the tracking operations
mutate. -/
structure ModelPerformanceData where
  predictions : List ModelPrediction
  outcomes : List ModelOutcome
  metrics : List ModelPerformanceMetrics

/-- `initializeMetrics` from `src/lib/services/model-tracking.ts`: one zeroed
metric entry per capability, in the fixed order tapas, distilbert, flant5,
bart. -/
def initializeMetrics : List ModelPerformanceMetrics :=
  [ModelType.tapas, ModelType.distilbert, ModelType.flant5, ModelType.bart].map
    (fun m => ⟨m, 0, 0, 0, none, 0, 0⟩)

/-- The store after `initializeStore` has run on an empty process. -/
def initialStore : ModelPerformanceData :=
  ⟨[], [], initializeMetrics⟩

/-- The metric update `recordPrediction` applies to the matched capability
entry: incremental success rate, average latency and error rate over the new
total. -/
def updateMetric (metric : ModelPerformanceMetrics) (p : ModelPrediction) :
    ModelPerformanceMetrics :=
  let totalPredictions := metric.totalPredictions + 1
  let successCount :=
    metric.successRate * metric.totalPredictions + (if p.success then 1 else 0)
  let totalLatency := metric.averageLatency * metric.totalPredictions + p.latency
  { metric with
    totalPredictions := totalPredictions
    successRate := successCount / totalPredictions
    averageLatency := totalLatency / totalPredictions
    lastUsed := p.timestamp
    errorRate := (totalPredictions - successCount) / totalPredictions }

/-- `recordPrediction` from `src/lib/services/model-tracking.ts` (lines
56–91): append the prediction, update the matching capability metric via
`findIndex`, then cap the prediction log at 1,000 records with
`slice(-1000)` (keeping the most recent ones). -/
def recordPrediction (p : ModelPrediction) (st : ModelPerformanceData) :
    ModelPerformanceData :=
  let predictions := st.predictions ++ [p]
  let metrics :=
    match st.metrics.findIdx? (fun m => m.modelType == p.modelType) with
    | some i => st.metrics.set i (updateMetric (st.metrics.get! i) p)
    | none => st.metrics
  let predictions' :=
    if predictions.length > 1000 then predictions.drop (predictions.length - 1000)
    else predictions
  ⟨predictions', st.outcomes, metrics⟩

/-- The accuracy recomputation `recordOutcome` performs when the outcome's
prediction is found: over all outcomes whose prediction shares the matched
prediction's capability. -/
def recomputeAccuracy (st : ModelPerformanceData) (pred : ModelPrediction) :
    List ModelPerformanceMetrics :=
  match st.metrics.findIdx? (fun m => m.modelType == pred.modelType) with
  | some i =>
    let metric := st.metrics.get! i
    let outcomes := st.outcomes.filter (fun o =>
      st.predictions.any (fun p => p.id == o.predictionId && p.modelType == pred.modelType))
    let correctOutcomes := (outcomes.filter (fun o => o.correct)).length
    st.metrics.set i
      { metric with
        accuracy := if outcomes.length > 0 then
          some ((correctOutcomes : ℚ) / outcomes.length) else none }
  | none => st.metrics

/-- `recordOutcome` from `src/lib/services/model-tracking.ts` (lines 94–122):
append the outcome, recompute the matched capability's accuracy, then cap the
outcome log at 1,000 records with `slice(-1000)`. -/
def recordOutcome (o : ModelOutcome) (st : ModelPerformanceData) :
    ModelPerformanceData :=
  let outcomes := st.outcomes ++ [o]
  let st1 : ModelPerformanceData := ⟨st.predictions, outcomes, st.metrics⟩
  let metrics :=
    match st1.predictions.find? (fun p => p.id == o.predictionId) with
    | some pred => recomputeAccuracy st1 pred
    | none => st1.metrics
  let outcomes' :=
    if outcomes.length > 1000 then outcomes.drop (outcomes.length - 1000)
    else outcomes
  ⟨st.predictions, outcomes', metrics⟩

/-- The succeeded predictions for one capability among a batch. -/
def successesFor (t : ModelType) (ps : List ModelPrediction) : Nat :=
  (ps.filter (fun p => p.modelType == t && p.success)).length

/-- All predictions for one capability among a batch. -/
def predictionsFor (t : ModelType) (ps : List ModelPrediction) : Nat :=
  (ps.filter (fun p => p.modelType == t)).length

/-- The metric entry the store holds for a capability. -/
def metricFor (st : ModelPerformanceData) (t : ModelType) :
    Option ModelPerformanceMetrics :=
  st.metrics.find? (fun m => m.modelType == t)

/-- The store after a batch of predictions has been recorded on a fresh
process. -/
def runPredictions (ps : List ModelPrediction) : ModelPerformanceData :=
  ps.foldl (fun st p => recordPrediction p st) initialStore

/-- JavaScript `String.prototype.trim`: strip leading and trailing
whitespace. -/
def trimStr (s : String) : String :=
  String.mk (((s.toList.dropWhile Char.isWhitespace).reverse.dropWhile
    Char.isWhitespace).reverse)

/-- JavaScript `String.prototype.toLowerCase` over the characters. -/
def strLower (s : String) : String :=
  String.mk (s.toList.map Char.toLower)

/-- Split a character list at every separator character, keeping empty
pieces. -/
def splitChars (p : Char → Bool) : List Char → List (List Char)
  | [] => [[]]
  | c :: rest =>
    let r := splitChars p rest
    if p c then [] :: r
    else
      match r with
      | [] => [[c]]
      | h :: t => (c :: h) :: t

/-- The sentence list `fallbackSummarization` starts from
(`src/lib/huggingface.ts` line 753): `text.split(/[.!?]+/)` then dropping the
pieces that are blank after trimming (splitting at every single terminator is
the same once blank pieces are dropped). -/
def sentencesOf (text : String) : List String :=
  ((splitChars (fun c => c == '.' || c == '!' || c == '?') text.toList).map
    String.mk).filter (fun s => !(trimStr s).isEmpty)

/-- JavaScript `split(/\s+/)`: tokens between maximal whitespace runs, with an
empty leading (trailing) token when the string starts (ends) with
whitespace. -/
def splitWS (s : String) : List String :=
  match s.toList with
  | [] => [""]
  | c :: rest =>
    let toks := ((splitChars Char.isWhitespace (c :: rest)).map String.mk).filter
      (fun t => !t.isEmpty)
    let lead : List String := if c.isWhitespace then [""] else []
    let trail : List String :=
      if ((c :: rest).getLastD c).isWhitespace then [""] else []
    lead ++ toks ++ trail

/-- The stop-word list of `fallbackSummarization`. -/
def stopWords : List String :=
  ["the", "and", "that", "this", "with", "for", "was", "were", "from", "have", "has"]

/-- The words of one sentence as `fallbackSummarization` sees them:
lowercased and split on whitespace. -/
def wordsOf (sentence : String) : List String :=
  splitWS (strLower sentence)

/-- `wordFrequency[word] = (wordFrequency[word] || 0) + 1` on an
insertion-ordered association list (JavaScript object keys keep insertion
order). -/
def bumpWord (freq : List (String × Nat)) (w : String) : List (String × Nat) :=
  if freq.any (fun e => e.1 == w) then
    freq.map (fun e => if e.1 == w then (e.1, e.2 + 1) else e)
  else
    freq ++ [(w, 1)]

/-- The word-frequency table over all sentences: words longer than three
characters that are not stop words. -/
def wordFrequency (sentences : List String) : List (String × Nat) :=
  sentences.foldl
    (fun freq sentence =>
      (wordsOf sentence).foldl
        (fun f w =>
          if w.length > 3 && !(stopWords.contains w) then bumpWord f w else f)
        freq)
    []

/-- Frequency lookup; an absent (hence falsy) entry contributes nothing. -/
def lookupFreq (freq : List (String × Nat)) (w : String) : Nat :=
  ((freq.find? (fun e => e.1 == w)).map (fun e => e.2)).getD 0

/-- One scored sentence `{sentence, score, index}` of
`fallbackSummarization`. -/
structure ScoredSentence where
  sentence : String
  score : ℚ
  index : Nat
deriving DecidableEq

/-- The sentence scores: summed word frequencies normalized by the sentence's
word count. -/
def sentenceScores (sentences : List String) : List ScoredSentence :=
  let freq := wordFrequency sentences
  sentences.enum.map (fun e =>
    let words := wordsOf e.2
    ⟨e.2, ((words.foldl (fun acc w => acc + lookupFreq freq w) 0 : Nat) : ℚ) /
      (words.length : ℚ), e.1⟩)

/-- `Math.min(3, Math.ceil(sentences.length / 3))`. -/
def numSentencesFor (n : Nat) : Nat := min 3 ((n + 2) / 3)

/-- The top-scoring sentences: stable sort descending by score (JavaScript
`Array.prototype.sort` is stable), then the first
`numSentencesFor` entries. -/
def topSentences (sentences : List String) : List ScoredSentence :=
  ((sentenceScores sentences).mergeSort (fun a b => b.score ≤ a.score)).take
    (numSentencesFor sentences.length)

/-- The selected sentences re-sorted into original order (ascending index). -/
def selectedInOrder (sentences : List String) : List ScoredSentence :=
  (topSentences sentences).mergeSort (fun a b => a.index ≤ b.index)

/-- JavaScript `Number.prototype.toFixed(2)` (round half up on the
magnitude). -/
def toFixed2 (q : ℚ) : String :=
  let sign := if q < 0 then "-" else ""
  let a := if q < 0 then -q else q
  let cents := natPart (a * 100 + 1/2)
  sign ++ toString (cents / 100) ++ "." ++
    (if cents % 100 < 10 then "0" ++ toString (cents % 100) else toString (cents % 100))

/-- The `- Top keywords: …` reasoning entries: frequency table stably sorted
descending by count, first five, rendered `word (count)`. -/
def topKeywords (sentences : List String) : List String :=
  (((wordFrequency sentences).mergeSort (fun a b => b.2 ≤ a.2)).take 5).map
    (fun e => e.1 ++ " (" ++ toString e.2 ++ ")")

/-- `fallbackSummarization` from `src/lib/huggingface.ts` (lines 749–836):
empty input gets the fixed message, a single sentence is returned verbatim
(trimmed), more than two sentences get the frequency-based extraction, and
exactly two sentences fall through to the first-and-last extraction.
Returns `(summary, reasoning)`. -/
def fallbackSummarization (text : String) : String × String :=
  let sentences := sentencesOf text
  let base := "Summarization reasoning:\n"
  if sentences.length = 0 then
    ("No content to summarize.", base ++ "- No content to summarize\n")
  else if sentences.length = 1 then
    (trimStr (sentences.headD ""),
     base ++ "- Text contains only one sentence, returning as is\n")
  else if 2 < sentences.length then
    let numSentences := numSentencesFor sentences.length
    let summary :=
      String.intercalate ". "
        ((selectedInOrder sentences).map (fun x => trimStr x.sentence)) ++ "."
    let reasoning := base ++
      "- Text contains " ++ toString sentences.length ++
        " sentences, using frequency-based extraction\n" ++
      "- Identified " ++ toString (wordFrequency sentences).length ++
        " unique keywords\n" ++
      "- Top keywords: " ++ String.intercalate ", " (topKeywords sentences) ++ "\n" ++
      "- Selected top " ++ toString numSentences ++ " sentences by relevance score\n" ++
      "- Sentence scores: " ++
        String.intercalate ", "
          ((topSentences sentences).map (fun x =>
            "#" ++ toString (x.index + 1) ++ " (" ++ toFixed2 x.score ++ ")")) ++ "\n" ++
      "- Arranged selected sentences in original order for coherence\n"
    (summary, reasoning)
  else
    (trimStr (sentences.headD "") ++ ". " ++ trimStr (sentences.getLastD "") ++ ".",
     base ++ "- Text is short, using first and last sentence extraction\n")

/-- Exact-arithmetic bookkeeping invariant of one capability metric:
`totalPredictions` counts the capability's predictions, and the stored rates
times the total recover the success and failure counts. -/
def MetricInv (m : ModelPerformanceMetrics) (total successes : Nat) : Prop :=
  m.totalPredictions = total ∧
  m.successRate * (total : ℚ) = (successes : ℚ) ∧
  m.errorRate * (total : ℚ) = (total : ℚ) - (successes : ℚ)

/-- Bookkeeping invariant of the whole tracker store after the batch `ps`:
the metrics list holds exactly the four capabilities in initialization order,
each satisfying `MetricInv` for its own slice of `ps`. -/
def StoreInv (st : ModelPerformanceData) (ps : List ModelPrediction) : Prop :=
  ∃ a b c d, st.metrics = [a, b, c, d] ∧
    a.modelType = ModelType.tapas ∧
      MetricInv a (predictionsFor .tapas ps) (successesFor .tapas ps) ∧
    b.modelType = ModelType.distilbert ∧
      MetricInv b (predictionsFor .distilbert ps) (successesFor .distilbert ps) ∧
    c.modelType = ModelType.flant5 ∧
      MetricInv c (predictionsFor .flant5 ps) (successesFor .flant5 ps) ∧
    d.modelType = ModelType.bart ∧
      MetricInv d (predictionsFor .bart ps) (successesFor .bart ps)

end BinanceAgents

namespace BinanceAgents

set_option maxHeartbeats 1000000 in
/-- The decision-making fallback only ever returns one of the three decision
tokens. -/
theorem fallbackDecisionMaking_mem (ind : Indicators) (mc : MarketConditions) :
    (fallbackDecisionMaking ind mc).1 ∈ (["BUY", "SELL", "HOLD"] : List String) := by
  unfold fallbackDecisionMaking marketConditionRules
  split_ifs <;>
    first
      | exact List.Mem.head _
      | exact List.Mem.tail _ (List.Mem.head _)
      | exact List.Mem.tail _ (List.Mem.tail _ (List.Mem.head _))

/-- The decision token extracted from remote output is one of the three
decision tokens. -/
theorem extractDecision_mem (content : String) :
    extractDecision content ∈ (["BUY", "SELL", "HOLD"] : List String) := by
  unfold extractDecision extractDecisionFrom
  split_ifs <;>
    first
      | exact List.Mem.head _
      | exact List.Mem.tail _ (List.Mem.head _)
      | exact List.Mem.tail _ (List.Mem.tail _ (List.Mem.head _))

/-- C1: the risk scorer computes exactly the specified formula (base `0.5`,
`+0.1` for RSI>70, `-0.1` for RSI<30, `-0.05` if MACD>signal else `+0.05`,
`+0.05` for volume > 1,000,000, `+(sentiment-0.5)*0.2`, clamped to `[0,1]`),
and on the snapshot `{rsi:75, macd:0.1, signal:0.05, volume:2000000,
price:50000}` with neutral sentiment `0.5` it returns `0.6`. -/
theorem calculateRiskScore_spec :
    (∀ (m : MarketData) (s : ℚ), calculateRiskScore m s = riskScoreSpec m s) ∧
    calculateRiskScore ⟨75, 1/10, 1/20, 2000000, 50000⟩ (1/2) = 3/5 := by
  constructor
  · intro m s
    unfold calculateRiskScore riskScoreSpec
    split_ifs <;> ring_nf
  · unfold calculateRiskScore
    norm_num

/-- C3: whenever the extracted risk indicator exceeds `0.7`, the
decision-making fallback returns `HOLD`, whatever the extracted RSI, MACD and
signal values and whatever market-condition keywords were detected: the
risk-override rule is evaluated first and short-circuits the cascade. -/
theorem fallbackDecisionMaking_risk_override
    (ind : Indicators) (mc : MarketConditions) (h : ind.risk > 7/10) :
    (fallbackDecisionMaking ind mc).1 = "HOLD" := by
  unfold fallbackDecisionMaking
  simp [h]

/-- Witness for C3: RSI `75` and a downtrend keyword would suggest `SELL`,
but risk `0.8 > 0.7` forces `HOLD`. -/
theorem fallbackDecisionMaking_risk_override_witness :
    (4/5 : ℚ) > 7/10 ∧
      (fallbackDecisionMaking ⟨75, 1, 0, 4/5⟩ ⟨false, false, false, true, false⟩).1
        = "HOLD" :=
  ⟨by norm_num,
   fallbackDecisionMaking_risk_override ⟨75, 1, 0, 4/5⟩
     ⟨false, false, false, true, false⟩ (by norm_num)⟩

/-- Counterexample to C4: with extracted indicators RSI `50`, MACD `-0.1`,
Signal `-0.2`, Risk `0.2` and no market-condition keywords, the risk and RSI
rules do not fire, MACD is above the signal line and risk `< 0.5`, yet the
fallback returns `HOLD`, not the `BUY` the claim requires: the source's MACD
buy rule additionally requires MACD to be positive. -/
theorem fallbackDecisionMaking_macd_counterexample :
    ¬ ((1/5 : ℚ) > 7/10) ∧ ¬ ((50 : ℚ) > 70) ∧ ¬ ((50 : ℚ) < 30) ∧
      (-(1/10) : ℚ) > -(1/5) ∧ (1/5 : ℚ) < 1/2 ∧
      (fallbackDecisionMaking ⟨50, -(1/10), -(1/5), 1/5⟩ noConditions).1 = "HOLD" := by
  refine ⟨by norm_num, by norm_num, by norm_num, by norm_num, by norm_num, ?_⟩
  unfold fallbackDecisionMaking marketConditionRules noConditions
  norm_num

/-- C4 as amended: after the risk-override and RSI rules fall through, the
MACD rule fires only for a *positive* MACD above the signal line (with
risk `< 0.5`, giving `BUY`) and only for a *negative* MACD below the signal
line (giving `SELL`); the rules are evaluated in the fixed order risk, RSI,
MACD, market conditions, default `HOLD`, first match short-circuiting. -/
theorem fallbackDecisionMaking_macd_rule
    (ind : Indicators) (mc : MarketConditions)
    (hrisk : ¬ ind.risk > 7/10) (hrsi₁ : ¬ ind.rsi > 70) (hrsi₂ : ¬ ind.rsi < 30) :
    (ind.macd > 0 ∧ ind.macd > ind.signal ∧ ind.risk < 1/2 →
      (fallbackDecisionMaking ind mc).1 = "BUY") ∧
    (ind.macd < 0 ∧ ind.macd < ind.signal →
      (fallbackDecisionMaking ind mc).1 = "SELL") := by
  constructor
  · rintro ⟨h1, h2, h3⟩
    unfold fallbackDecisionMaking
    split_ifs <;> simp_all
  · rintro ⟨h1, h2⟩
    have hnot : ¬ (ind.macd > 0 ∧ ind.macd > ind.signal) := by
      rintro ⟨h3, _⟩; exact absurd h1 (not_lt.mpr h3.le)
    unfold fallbackDecisionMaking
    split_ifs <;> simp_all

/-- Witness for the amended C4: RSI `50`, MACD `0.1 > 0` above signal `0.05`,
risk `0.2 < 0.5` gives `BUY`; RSI `50`, MACD `-0.2 < 0` below signal `-0.1`
gives `SELL`. -/
theorem fallbackDecisionMaking_macd_rule_witness :
    (fallbackDecisionMaking ⟨50, 1/10, 1/20, 1/5⟩ noConditions).1 = "BUY" ∧
      (fallbackDecisionMaking ⟨50, -(1/5), -(1/10), 1/5⟩ noConditions).1 = "SELL" :=
  ⟨(fallbackDecisionMaking_macd_rule ⟨50, 1/10, 1/20, 1/5⟩ noConditions
      (by norm_num) (by norm_num) (by norm_num)).1 ⟨by norm_num, by norm_num, by norm_num⟩,
   (fallbackDecisionMaking_macd_rule ⟨50, -(1/5), -(1/10), 1/5⟩ noConditions
      (by norm_num) (by norm_num) (by norm_num)).2 ⟨by norm_num, by norm_num⟩⟩

/-- C5: on every path of `analyzeSignals` — remote decision, internal
fallback, thrown-and-caught fallback, or the default result on an internal
error — the returned decision is one of exactly `BUY`, `SELL`, `HOLD`, and
the returned risk score lies in `[0, 1]`. -/
theorem analyzeSignals_invariants
    (internalError : Bool) (c : DecisionCall) (m : MarketData) (sentiment : ℚ) :
    analyzeSignalsDecision internalError c ∈ (["BUY", "SELL", "HOLD"] : List String) ∧
      0 ≤ analyzeSignalsRiskScore internalError m sentiment ∧
      analyzeSignalsRiskScore internalError m sentiment ≤ 1 := by
  refine ⟨?_, ?_, ?_⟩
  · unfold analyzeSignalsDecision
    split
    · simp
    · cases c with
      | remote content => exact extractDecision_mem content
      | fellBack ind mc => exact fallbackDecisionMaking_mem ind mc
      | threw ind mc => exact fallbackDecisionMaking_mem ind mc
  · unfold analyzeSignalsRiskScore
    split
    · norm_num
    · exact le_max_left 0 _
  · unfold analyzeSignalsRiskScore
    split
    · norm_num
    · exact max_le (by norm_num) (min_le_left 1 _)

set_option maxRecDepth 20000 in
set_option maxHeartbeats 2000000 in
/-- C2 (code-bug evidence): when the decision stage's remote call fails and
`queryFLANT5` returns the deterministic fallback, the reasoning string
produced by `fallbackDecisionMaking` does not contain the marker `"Fallback"`
that `analyzeSignals` searches for, so the recorded per-stage flag — and with
it the route's overall `usedFallback` flag — stays `false` even though the
fallback was used. -/
theorem usedFallback_flag_misses_internal_fallback :
    fallbackWasUsed (DecisionCall.fellBack ⟨50, 0, 0, 1/2⟩ noConditions) = true ∧
      decisionUsedFallbackFlag (DecisionCall.fellBack ⟨50, 0, 0, 1/2⟩ noConditions) = false ∧
      overallUsedFallback false false false
        (decisionUsedFallbackFlag (DecisionCall.fellBack ⟨50, 0, 0, 1/2⟩ noConditions))
        false = false := by
  refine ⟨rfl, ?_, ?_⟩ <;> decide

/-- C6: with trading enabled, a `HOLD` action is rejected with exactly
`"Action is HOLD, no trade executed"` and an empty Exchange Client call
trace, whatever the allowed-symbol list, test-mode flag, risk state and
exchange responses — the HOLD check precedes the symbol, test-mode and
risk-parameter checks. -/
theorem executeTrade_hold_rejected
    (cfg : TradingConfig) (env : ExchangeEnv) (symbol : String) (confidence : ℚ)
    (now : Nat) (henabled : cfg.enabled = true) :
    executeTrade cfg env symbol "HOLD" confidence now =
      (⟨false, none, none, some "Action is HOLD, no trade executed"⟩, []) := by
  unfold executeTrade
  rw [if_pos]
  · rw [henabled]; rfl
  · rw [henabled]; rfl

/-- Witness for C6: a concrete enabled configuration in test mode with the
symbol allowed still rejects `HOLD` without touching the exchange. -/
theorem executeTrade_hold_rejected_witness :
    executeTrade ⟨true, true, ["BTCUSDT"], ⟨100, 2, 4, 50, 1/5⟩⟩
        ⟨[⟨"USDT", 1000, 1000⟩], 50000, ⟨true, none, none, none⟩, true, 0⟩
        "BTCUSDT" "HOLD" (9/10) 1700000000000 =
      (⟨false, none, none, some "Action is HOLD, no trade executed"⟩, []) :=
  executeTrade_hold_rejected ⟨true, true, ["BTCUSDT"], ⟨100, 2, 4, 50, 1/5⟩⟩
    ⟨[⟨"USDT", 1000, 1000⟩], 50000, ⟨true, none, none, none⟩, true, 0⟩
    "BTCUSDT" (9/10) 1700000000000 rfl

/-- C7: with trading enabled, test mode on, a `BUY` or `SELL` action and an
allowed symbol, `executeTrade` succeeds with an order id starting with
`"test_"` and a fully-filled simulated `MARKET` order, and issues no
Exchange Client call. -/
theorem executeTrade_testMode
    (cfg : TradingConfig) (env : ExchangeEnv) (symbol action : String)
    (confidence : ℚ) (now : Nat)
    (henabled : cfg.enabled = true) (htest : cfg.testMode = true)
    (haction : action = "BUY" ∨ action = "SELL")
    (hsymbol : cfg.allowedSymbols.contains symbol = true) :
    executeTrade cfg env symbol action confidence now =
      (⟨true, some ("test_" ++ toString now),
        some ⟨"test_" ++ toString now, symbol, action, "MARKET", "FILLED", 0, 0, now⟩,
        none⟩, []) ∧
      ∃ rest, "test_" ++ toString now = "test_" ++ rest := by
  refine ⟨?_, toString now, rfl⟩
  have hne : ¬ (action == "HOLD") = true := by
    rcases haction with h | h <;> simp [h]
  unfold executeTrade
  rw [if_neg, if_neg, if_pos htest]
  · rw [hsymbol]; decide
  · simp [henabled, hne]

/-- Witness for C7: a concrete enabled test-mode configuration executing a
`BUY` for an allowed symbol. -/
theorem executeTrade_testMode_witness :
    executeTrade ⟨true, true, ["BTCUSDT", "ETHUSDT"], ⟨100, 2, 4, 50, 1/5⟩⟩
        ⟨[⟨"USDT", 1000, 1000⟩], 50000, ⟨true, none, none, none⟩, true, 0⟩
        "ETHUSDT" "BUY" (3/4) 1700000000123 =
      (⟨true, some ("test_" ++ toString 1700000000123),
        some ⟨"test_" ++ toString 1700000000123, "ETHUSDT", "BUY", "MARKET", "FILLED",
          0, 0, 1700000000123⟩, none⟩, []) ∧
      ∃ rest, "test_" ++ toString 1700000000123 = "test_" ++ rest :=
  executeTrade_testMode ⟨true, true, ["BTCUSDT", "ETHUSDT"], ⟨100, 2, 4, 50, 1/5⟩⟩
    ⟨[⟨"USDT", 1000, 1000⟩], 50000, ⟨true, none, none, none⟩, true, 0⟩
    "ETHUSDT" "BUY" (3/4) 1700000000123 rfl rfl (Or.inl rfl) (by decide)

/-- Appending one prediction grows a capability's prediction count by one
exactly when the prediction belongs to that capability. -/
theorem predictionsFor_append (t : ModelType) (ps : List ModelPrediction)
    (p : ModelPrediction) :
    predictionsFor t (ps ++ [p]) =
      predictionsFor t ps + (if p.modelType = t then 1 else 0) := by
  unfold predictionsFor
  rw [List.filter_append, List.length_append]
  by_cases h : p.modelType = t <;> simp [List.filter_cons, h]

/-- Appending one prediction grows a capability's success count by one
exactly when the prediction belongs to that capability and succeeded. -/
theorem successesFor_append (t : ModelType) (ps : List ModelPrediction)
    (p : ModelPrediction) :
    successesFor t (ps ++ [p]) =
      successesFor t ps + (if p.modelType = t ∧ p.success then 1 else 0) := by
  unfold successesFor
  rw [List.filter_append, List.length_append]
  by_cases h : p.modelType = t
  · by_cases hs : p.success <;> simp [List.filter_cons, h, hs]
  · simp [List.filter_cons, h]

/-- `updateMetric` preserves the exact-arithmetic bookkeeping invariant. -/
theorem metricInv_update (m : ModelPerformanceMetrics) (total successes : Nat)
    (h : MetricInv m total successes) (p : ModelPrediction) :
    MetricInv (updateMetric m p) (total + 1)
      (successes + if p.success then 1 else 0) := by
  obtain ⟨h1, h2, h3⟩ := h
  have hne : ((total : ℚ) + 1) ≠ 0 := by positivity
  unfold MetricInv updateMetric
  refine ⟨by simp [h1], ?_, ?_⟩ <;>
    · by_cases hs : p.success <;>
        · simp only [h1, hs, if_true, if_false]
          push_cast
          rw [div_mul_cancel₀ _ hne]
          push_cast [h2] at h2 ⊢
          linarith [h2]

/-- `updateMetric` does not change the capability tag. -/
theorem updateMetric_modelType (m : ModelPerformanceMetrics) (p : ModelPrediction) :
    (updateMetric m p).modelType = m.modelType := rfl

/-- The freshly initialized store satisfies the bookkeeping invariant. -/
theorem storeInv_init : StoreInv initialStore [] := by
  refine ⟨_, _, _, _, rfl, rfl, ?_, rfl, ?_, rfl, ?_, rfl, ?_⟩ <;>
    exact ⟨rfl, by simp [predictionsFor, successesFor], by
      simp [predictionsFor, successesFor]⟩

/-- `recordPrediction` preserves the bookkeeping invariant. -/
theorem storeInv_record (st : ModelPerformanceData) (ps : List ModelPrediction)
    (p : ModelPrediction) (h : StoreInv st ps) :
    StoreInv (recordPrediction p st) (ps ++ [p]) := by
  obtain ⟨a, b, c, d, hm, hat, hai, hbt, hbi, hct, hci, hdt, hdi⟩ := h
  cases hp : p.modelType with
  | tapas =>
    refine ⟨updateMetric a p, b, c, d, ?_, ?_, ?_, hbt, ?_, hct, ?_, hdt, ?_⟩
    · simp [recordPrediction, hm, List.findIdx?, hat, hbt, hct, hdt, hp, List.get!]
    · rw [updateMetric_modelType]; exact hat
    · rw [predictionsFor_append, successesFor_append]
      simp only [hp, if_true, and_true, reduceIte, true_and]
      exact metricInv_update a _ _ hai p
    · rw [predictionsFor_append, successesFor_append]
      simp [hp]
      exact hbi
    · rw [predictionsFor_append, successesFor_append]
      simp [hp]
      exact hci
    · rw [predictionsFor_append, successesFor_append]
      simp [hp]
      exact hdi
  | distilbert =>
    refine ⟨a, updateMetric b p, c, d, ?_, hat, ?_, ?_, ?_, hct, ?_, hdt, ?_⟩
    · simp [recordPrediction, hm, List.findIdx?, hat, hbt, hct, hdt, hp, List.get!]
    · rw [predictionsFor_append, successesFor_append]
      simp [hp]
      exact hai
    · rw [updateMetric_modelType]; exact hbt
    · rw [predictionsFor_append, successesFor_append]
      simp only [hp, if_true, and_true, reduceIte, true_and]
      exact metricInv_update b _ _ hbi p
    · rw [predictionsFor_append, successesFor_append]
      simp [hp]
      exact hci
    · rw [predictionsFor_append, successesFor_append]
      simp [hp]
      exact hdi
  | flant5 =>
    refine ⟨a, b, updateMetric c p, d, ?_, hat, ?_, hbt, ?_, ?_, ?_, hdt, ?_⟩
    · simp [recordPrediction, hm, List.findIdx?, hat, hbt, hct, hdt, hp, List.get!]
    · rw [predictionsFor_append, successesFor_append]
      simp [hp]
      exact hai
    · rw [predictionsFor_append, successesFor_append]
      simp [hp]
      exact hbi
    · rw [updateMetric_modelType]; exact hct
    · rw [predictionsFor_append, successesFor_append]
      simp only [hp, if_true, and_true, reduceIte, true_and]
      exact metricInv_update c _ _ hci p
    · rw [predictionsFor_append, successesFor_append]
      simp [hp]
      exact hdi
  | bart =>
    refine ⟨a, b, c, updateMetric d p, ?_, hat, ?_, hbt, ?_, hct, ?_, ?_, ?_⟩
    · simp [recordPrediction, hm, List.findIdx?, hat, hbt, hct, hdt, hp, List.get!]
    · rw [predictionsFor_append, successesFor_append]
      simp [hp]
      exact hai
    · rw [predictionsFor_append, successesFor_append]
      simp [hp]
      exact hbi
    · rw [predictionsFor_append, successesFor_append]
      simp [hp]
      exact hci
    · rw [updateMetric_modelType]; exact hdt
    · rw [predictionsFor_append, successesFor_append]
      simp only [hp, if_true, and_true, reduceIte, true_and]
      exact metricInv_update d _ _ hdi p

/-- Recording a whole batch from a fresh process satisfies the invariant. -/
theorem storeInv_run (ps : List ModelPrediction) :
    StoreInv (runPredictions ps) ps := by
  induction ps using List.reverseRecOn with
  | nil => exact storeInv_init
  | append_singleton ps p ih =>
    have : runPredictions (ps ++ [p]) = recordPrediction p (runPredictions ps) := by
      simp [runPredictions, List.foldl_append]
    rw [this]
    exact storeInv_record _ _ _ ih

/-- C9: after any `recordPrediction` and any `recordOutcome`, the prediction
log and the outcome log hold at most 1,000 records, and the retained records
are exactly the most recent ones in insertion order (the appended list with
its oldest surplus dropped). -/
theorem tracker_log_caps (st : ModelPerformanceData) (p : ModelPrediction)
    (o : ModelOutcome) :
    ((recordPrediction p st).predictions.length ≤ 1000 ∧
      (recordPrediction p st).predictions =
        (st.predictions ++ [p]).drop (st.predictions.length + 1 - 1000)) ∧
    ((recordOutcome o st).outcomes.length ≤ 1000 ∧
      (recordOutcome o st).outcomes =
        (st.outcomes ++ [o]).drop (st.outcomes.length + 1 - 1000)) := by
  constructor
  · unfold recordPrediction
    by_cases h : (st.predictions ++ [p]).length > 1000
    · simp only [h, if_pos]
      have hl : (st.predictions ++ [p]).length = st.predictions.length + 1 := by simp
      constructor
      · rw [List.length_drop]
        omega
      · rw [hl]
    · simp only [h, if_neg, not_false_iff]
      have hl : (st.predictions ++ [p]).length = st.predictions.length + 1 := by simp
      have hz : st.predictions.length + 1 - 1000 = 0 := by omega
      constructor
      · simpa [hl] using by omega
      · rw [hz, List.drop_zero]
  · unfold recordOutcome
    by_cases h : (st.outcomes ++ [o]).length > 1000
    · simp only [h, if_pos]
      have hl : (st.outcomes ++ [o]).length = st.outcomes.length + 1 := by simp
      constructor
      · rw [List.length_drop]
        omega
      · rw [hl]
    · simp only [h, if_neg, not_false_iff]
      have hl : (st.outcomes ++ [o]).length = st.outcomes.length + 1 := by simp
      have hz : st.outcomes.length + 1 - 1000 = 0 := by omega
      constructor
      · simpa [hl] using by omega
      · rw [hz, List.drop_zero]

/-- A metric satisfying the bookkeeping invariant with a positive total has
`successRate` equal to the success fraction and rates summing to one. -/
theorem metricInv_rates (m : ModelPerformanceMetrics) (total successes : Nat)
    (h : MetricInv m total successes) (hpos : 1 ≤ total) :
    m.totalPredictions = total ∧
      m.successRate = (successes : ℚ) / (total : ℚ) ∧
      m.successRate + m.errorRate = 1 := by
  obtain ⟨h1, h2, h3⟩ := h
  have hne : ((total : ℚ)) ≠ 0 := Nat.cast_ne_zero.mpr (by omega)
  refine ⟨h1, (eq_div_iff hne).mpr h2, ?_⟩
  have hmul : (m.successRate + m.errorRate) * (total : ℚ) = 1 * (total : ℚ) := by
    rw [add_mul, h2, h3]; ring
  exact mul_right_cancel₀ hne hmul

/-- C10: under exact rational arithmetic, after any batch of
`recordPrediction` calls on a fresh store, each capability with at least one
recorded prediction has `successRate` equal to the fraction of its
predictions that succeeded, and `successRate + errorRate = 1`. -/
theorem tracker_rates (ps : List ModelPrediction) (t : ModelType)
    (h : 1 ≤ predictionsFor t ps) :
    ∃ m, metricFor (runPredictions ps) t = some m ∧
      m.totalPredictions = predictionsFor t ps ∧
      m.successRate = (successesFor t ps : ℚ) / (predictionsFor t ps : ℚ) ∧
      m.successRate + m.errorRate = 1 := by
  obtain ⟨a, b, c, d, hm, hat, hai, hbt, hbi, hct, hci, hdt, hdi⟩ := storeInv_run ps
  cases t with
  | tapas =>
    refine ⟨a, ?_, metricInv_rates a _ _ hai h⟩
    unfold metricFor
    rw [hm]
    simp [List.find?, hat]
  | distilbert =>
    refine ⟨b, ?_, metricInv_rates b _ _ hbi h⟩
    unfold metricFor
    rw [hm]
    simp [List.find?, hat, hbt]
    rfl
  | flant5 =>
    refine ⟨c, ?_, metricInv_rates c _ _ hci h⟩
    unfold metricFor
    rw [hm]
    simp [List.find?, hat, hbt, hct]
    rfl
  | bart =>
    refine ⟨d, ?_, metricInv_rates d _ _ hdi h⟩
    unfold metricFor
    rw [hm]
    simp [List.find?, hat, hbt, hct, hdt]
    rfl

/-- Witness for C10: recording one successful tapas prediction yields a
tapas metric with `successRate = 1/1` and rates summing to one. -/
theorem tracker_rates_witness :
    1 ≤ predictionsFor ModelType.tapas
        [⟨"pred_1", 5, ModelType.tapas, "q", "a", 120, true, none⟩] ∧
      ∃ m, metricFor (runPredictions
            [⟨"pred_1", 5, ModelType.tapas, "q", "a", 120, true, none⟩])
            ModelType.tapas = some m ∧
        m.totalPredictions = predictionsFor ModelType.tapas
          [⟨"pred_1", 5, ModelType.tapas, "q", "a", 120, true, none⟩] ∧
        m.successRate = (successesFor ModelType.tapas
            [⟨"pred_1", 5, ModelType.tapas, "q", "a", 120, true, none⟩] : ℚ) /
          (predictionsFor ModelType.tapas
            [⟨"pred_1", 5, ModelType.tapas, "q", "a", 120, true, none⟩] : ℚ) ∧
        m.successRate + m.errorRate = 1 :=
  ⟨by decide,
   tracker_rates [⟨"pred_1", 5, ModelType.tapas, "q", "a", 120, true, none⟩]
     ModelType.tapas (by decide)⟩


/-- Scoring keeps one entry per sentence. -/
theorem length_sentenceScores (s : List String) :
    (sentenceScores s).length = s.length := by
  simp [sentenceScores]

/-- Structural properties of the frequency-based selection: the selected
count is `min 3 ⌈n/3⌉`, selected entries come from the scored sentences, they
appear in strictly increasing original order, and every unselected scored
sentence scores no higher than any selected one. -/
theorem selection_properties (s : List String) (h : 2 < s.length) :
    (selectedInOrder s).length = min 3 ((s.length + 2) / 3) ∧
    (∀ x ∈ selectedInOrder s, x ∈ sentenceScores s) ∧
    (selectedInOrder s).Pairwise (fun x y => x.index < y.index) ∧
    (∀ x ∈ selectedInOrder s, ∀ y ∈ sentenceScores s, y ∉ selectedInOrder s →
      y.score ≤ x.score) := by
  set scores := sentenceScores s with hscores
  set sorted := scores.mergeSort (fun a b => b.score ≤ a.score) with hsorted
  have hperm1 : sorted.Perm scores := List.mergeSort_perm scores _
  have hlen1 : sorted.length = scores.length := hperm1.length_eq
  have hlen2 : scores.length = s.length := length_sentenceScores s
  have htop : topSentences s = sorted.take (numSentencesFor s.length) := rfl
  have hperm2 : (selectedInOrder s).Perm (topSentences s) :=
    List.mergeSort_perm _ _
  have hsub : topSentences s ⊆ sorted := by
    rw [htop]; exact List.take_subset _ _
  have hdesc : sorted.Pairwise (fun a b => b.score ≤ a.score) := by
    have := @List.sorted_mergeSort ScoredSentence
      (fun a b : ScoredSentence => decide (b.score ≤ a.score))
      (fun a b c hab hbc => by
        simp only [decide_eq_true_eq] at *
        exact le_trans hbc hab)
      (fun a b => by
        simp only [Bool.or_eq_true, decide_eq_true_eq]
        exact le_total b.score a.score)
      scores
    exact this.imp (fun hab => of_decide_eq_true hab)
  refine ⟨?_, ?_, ?_, ?_⟩
  · have : (selectedInOrder s).length = (topSentences s).length := hperm2.length_eq
    rw [this, htop, List.length_take, hlen1, hlen2]
    unfold numSentencesFor
    omega
  · intro x hx
    exact hperm1.subset (hsub (hperm2.subset hx))
  · have hidx : (selectedInOrder s).Pairwise (fun a b => a.index ≤ b.index) := by
      have := @List.sorted_mergeSort ScoredSentence
        (fun a b : ScoredSentence => decide (a.index ≤ b.index))
        (fun a b c hab hbc => by
          simp only [decide_eq_true_eq] at *
          exact le_trans hab hbc)
        (fun a b => by
          simp only [Bool.or_eq_true, decide_eq_true_eq]
          exact le_total a.index b.index)
        (topSentences s)
      exact this.imp (fun hab => of_decide_eq_true hab)
    have hnodupRange : (scores.map (fun x => x.index)).Nodup := by
      have : scores.map (fun x => x.index) = List.range s.length := by
        rw [hscores]
        unfold sentenceScores
        rw [List.map_map]
        exact List.enum_map_fst s
      rw [this]
      exact List.nodup_range _
    have hnodupSorted : (sorted.map (fun x => x.index)).Nodup :=
      ((hperm1.map _).nodup_iff).mpr hnodupRange
    have hnodupTop : ((topSentences s).map (fun x => x.index)).Nodup := by
      refine List.Nodup.sublist ?_ hnodupSorted
      rw [htop]
      exact (List.take_sublist _ _).map _
    have hnodupSel : ((selectedInOrder s).map (fun x => x.index)).Nodup :=
      ((hperm2.map _).nodup_iff).mpr hnodupTop
    have hne : (selectedInOrder s).Pairwise (fun a b => a.index ≠ b.index) :=
      (List.pairwise_map).mp hnodupSel
    exact (hidx.and hne).imp (fun hab => lt_of_le_of_ne hab.1 hab.2)
  · intro x hx y hy hynot
    have hx' : x ∈ topSentences s := hperm2.subset hx
    have hy1 : y ∈ sorted := hperm1.mem_iff.mpr hy
    have hy2 : y ∉ topSentences s := fun hmem => hynot (hperm2.mem_iff.mpr hmem)
    have hsplit : sorted = sorted.take (numSentencesFor s.length) ++
        sorted.drop (numSentencesFor s.length) := (List.take_append_drop _ _).symm
    have hcross := (List.pairwise_append.mp (hsplit ▸ hdesc)).2.2
    have hy3 : y ∈ sorted.drop (numSentencesFor s.length) := by
      rcases (List.mem_append.mp (hsplit ▸ hy1)) with h1 | h1
      · exact absurd (htop ▸ h1) hy2
      · exact h1
    exact hcross x (htop ▸ hx') y hy3

/-- C8 as amended: empty input returns the fixed message with a no-content
reasoning line; one sentence is returned verbatim (trimmed); exactly two
sentences fall through to the first-and-last extraction; and only for more
than two sentences does the fallback return the top `min(3, ceil(n/3))`
sentences by stop-word-excluded, length-normalized word-frequency score,
reassembled in their original order. -/
theorem fallbackSummarization_amended (text : String) :
    ((sentencesOf text).length = 0 →
      fallbackSummarization text =
        ("No content to summarize.",
         "Summarization reasoning:\n" ++ "- No content to summarize\n")) ∧
    ((sentencesOf text).length = 1 →
      (fallbackSummarization text).1 = trimStr ((sentencesOf text).headD "")) ∧
    ((sentencesOf text).length = 2 →
      (fallbackSummarization text).1 =
        trimStr ((sentencesOf text).headD "") ++ ". " ++
          trimStr ((sentencesOf text).getLastD "") ++ ".") ∧
    (2 < (sentencesOf text).length →
      ∃ sel : List ScoredSentence,
        sel.length = min 3 (((sentencesOf text).length + 2) / 3) ∧
        (∀ x ∈ sel, x ∈ sentenceScores (sentencesOf text)) ∧
        sel.Pairwise (fun x y => x.index < y.index) ∧
        (∀ x ∈ sel, ∀ y ∈ sentenceScores (sentencesOf text), y ∉ sel →
          y.score ≤ x.score) ∧
        (fallbackSummarization text).1 =
          String.intercalate ". " (sel.map (fun x => trimStr x.sentence)) ++ ".") := by
  refine ⟨?_, ?_, ?_, ?_⟩
  · intro h0
    unfold fallbackSummarization
    rw [if_pos h0]
  · intro h1
    unfold fallbackSummarization
    rw [if_neg (by omega), if_pos h1]
  · intro h2
    unfold fallbackSummarization
    rw [if_neg (by omega), if_neg (by omega), if_neg (by omega)]
  · intro h3
    obtain ⟨hlen, hmem, hpair, hopt⟩ := selection_properties (sentencesOf text) h3
    refine ⟨selectedInOrder (sentencesOf text), hlen, hmem, hpair, hopt, ?_⟩
    unfold fallbackSummarization
    rw [if_neg (by omega), if_neg (by omega), if_pos h3]


/-- Counterexample to C8: on the two-sentence input
`"Alpha beta gamma. Delta epsilon zeta."` the claim demands
`min(3, ceil(2/3)) = 1` selected sentence, but the fallback returns both
sentences (the source's frequency-based branch requires strictly more than
two sentences; two-sentence inputs take the first-and-last path). -/
theorem fallbackSummarization_two_sentences_counterexample :
    (sentencesOf "Alpha beta gamma. Delta epsilon zeta.").length = 2 ∧
      numSentencesFor 2 = 1 ∧
      (fallbackSummarization "Alpha beta gamma. Delta epsilon zeta.").1 =
        "Alpha beta gamma. Delta epsilon zeta." ∧
      (sentencesOf
          ((fallbackSummarization "Alpha beta gamma. Delta epsilon zeta.").1)).length
        ≠ 1 := by
  refine ⟨by decide, by decide, by decide, by decide⟩

/-- Witness for the amended C8: the empty input yields the fixed
no-content summary and reasoning. -/
theorem fallbackSummarization_amended_witness :
    (sentencesOf "").length = 0 ∧
      fallbackSummarization "" =
        ("No content to summarize.",
         "Summarization reasoning:\n" ++ "- No content to summarize\n") :=
  ⟨by decide, (fallbackSummarization_amended "").1 (by decide)⟩
end BinanceAgents
